import Mathlib

/-!
Verification of the report ingestion and notification pipeline of the
Fandom reported-posts bot (src/index.js).

The JavaScript source is shallowly embedded: strings are Lean strings
over their character lists (JS string indices are UTF-16 units; every
character occurring here is a single unit, so lengths agree), JS Set
objects holding post identifiers are lists of strings, fallible JS
expressions (property access on undefined, unguarded lookups) return
Option, where none models a thrown TypeError, and JSON values are an
inductive JVal with JSON.parse modelled by an executable parser.
getPostUrl is not modelled: no verified property concerns it, and its
container-cache lookups fail exactly when the footer label lookup of
generateEmbed fails, so Option propagation through the label models the
throw/no-throw behaviour of the whole embed construction.
-/

namespace ReportedPostsBot

/-! ## Text normalizer (src/index.js lines 140-179) -/

/-- Model of the JS trim call on line 148: drop whitespace from both ends. -/
def jsTrim (s : String) : String :=
  String.mk (((s.data.dropWhile Char.isWhitespace).reverse.dropWhile Char.isWhitespace).reverse)

/-- Model of text.substring(0, n) on line 150 (a negative n is clamped to 0
by JS, matching Nat subtraction at the call site). -/
def strTake (s : String) (n : Nat) : String :=
  String.mk (s.data.take n)

/-- trimEllip (src/index.js lines 147-152): trim, then either return the
trimmed text or its first (length - elipsis.length) characters plus the
elipsis. The source gives elipsis the default value of the horizontal
ellipsis character; call sites here pass it explicitly. -/
def trimEllip (text : String) (length : Nat) (elipsis : String) : String :=
  let t := jsTrim text
  if t.length > length then strTake t (length - elipsis.length) ++ elipsis else t

/-! ## JS value model shared by the JSON walk, the config check and the
container-resolution guard -/

/-- JSON-representable JS values. null is a constructor; a missing
property (JS undefined) is modelled as Option none at use sites. -/
inductive JVal where
  | null
  | bool (b : Bool)
  | num (n : Int)
  | str (s : String)
  | arr (elems : List JVal)
  | obj (fields : List (String × JVal))

/-- Property access v[name] for a v that is neither null nor undefined:
yields the field for objects and undefined (none) otherwise. -/
def getField (v : JVal) (name : String) : Option JVal :=
  match v with
  | .obj fields => (fields.find? (fun f => f.1 == name)).map (fun f => f.2)
  | _ => none

/-- ECMAScript ToBoolean on a JSON-representable value. -/
def truthy : JVal → Bool
  | .null => false
  | .bool b => b
  | .num n => n != 0
  | .str s => s != ""
  | .arr _ => true
  | .obj _ => true

mutual

/-- Array nesting depth of a value. -/
def jsDepth : JVal → Nat
  | .arr xs => jsDepthList xs + 1
  | .obj fs => jsDepthFields fs + 1
  | _ => 1

def jsDepthList : List JVal → Nat
  | [] => 0
  | x :: xs => max (jsDepth x) (jsDepthList xs)

def jsDepthFields : List (String × JVal) → Nat
  | [] => 0
  | f :: fs => max (jsDepth f.2) (jsDepthFields fs)

end

/-- ECMAScript ToString for the values above, with fuel bounding array
nesting (a plain object stringifies to the bracketed object placeholder,
an array to its elements joined by commas with null elements
stringifying to the empty string as in JS). -/
def jsToStringF : JVal → Nat → String
  | .null, _ => "null"
  | .bool b, _ => cond b "true" "false"
  | .num n, _ => toString n
  | .str s, _ => s
  | .obj _, _ => "[object Object]"
  | .arr _, 0 => ""
  | .arr xs, fuel + 1 =>
    String.intercalate "," (xs.map fun x =>
      match x with
      | .null => ""
      | v => jsToStringF v fuel)

/-- ECMAScript ToString; jsDepth dominates the nesting, so the fuel
never runs out. -/
def jsToString (v : JVal) : String :=
  jsToStringF v (jsDepth v)

/-! ## JSON.parse model (used by adfToText, src/index.js line 163)

An executable recursive-descent parser for JSON text. It accepts the
grammar of JSON.parse except that a numeric literal keeps only its
integer part (no input in this development carries a fraction or
exponent). -/

def quoteChar : Char := Char.ofNat 34

def backslashChar : Char := Char.ofNat 92

def lbraceChar : Char := Char.ofNat 123

def rbraceChar : Char := Char.ofNat 125

def jsonWs (c : Char) : Bool :=
  c == ' ' || c == '\t' || c == '\n' || c == '\r'

def skipWs (s : List Char) : List Char :=
  s.dropWhile jsonWs

def parseLit (lit : List Char) (val : JVal) (s : List Char) : Option (JVal × List Char) :=
  if lit.isPrefixOf s then some (val, s.drop lit.length) else none

def hexVal (c : Char) : Option Nat :=
  if c.isDigit then some (c.toNat - 48)
  else if 'a' ≤ c ∧ c ≤ 'f' then some (c.toNat - 87)
  else if 'A' ≤ c ∧ c ≤ 'F' then some (c.toNat - 55)
  else none

def escChar (e : Char) : Option Char :=
  if e == quoteChar then some quoteChar
  else if e == backslashChar then some backslashChar
  else if e == '/' then some '/'
  else if e == 'n' then some '\n'
  else if e == 't' then some '\t'
  else if e == 'r' then some '\r'
  else if e == 'b' then some (Char.ofNat 8)
  else if e == 'f' then some (Char.ofNat 12)
  else none

/-- Body of a JSON string literal after the opening quote; returns the
decoded characters and the input after the closing quote. -/
def parseStr : Nat → List Char → Option (List Char × List Char)
  | 0, _ => none
  | _, [] => none
  | fuel+1, c :: rest =>
    if c == quoteChar then some ([], rest)
    else if c == backslashChar then
      match rest with
      | [] => none
      | e :: rest2 =>
        if e == 'u' then
          match rest2 with
          | a :: b :: c2 :: d :: rest3 =>
            match hexVal a, hexVal b, hexVal c2, hexVal d with
            | some ha, some hb, some hc, some hd =>
              match parseStr fuel rest3 with
              | some (cs, r) => some (Char.ofNat (((ha * 16 + hb) * 16 + hc) * 16 + hd) :: cs, r)
              | none => none
            | _, _, _, _ => none
          | _ => none
        else
          match escChar e with
          | some ec =>
            match parseStr fuel rest2 with
            | some (cs, r) => some (ec :: cs, r)
            | none => none
          | none => none
    else if c.toNat < 32 then none
    else
      match parseStr fuel rest with
      | some (cs, r) => some (c :: cs, r)
      | none => none

def parseDigits (s : List Char) : Option (Nat × List Char) :=
  let ds := s.takeWhile Char.isDigit
  if ds.isEmpty then none
  else some (ds.foldl (fun a c => a * 10 + (c.toNat - 48)) 0, s.drop ds.length)

def skipFrac (s : List Char) : Option (List Char) :=
  match s with
  | c :: rest => if c == '.' then (parseDigits rest).map (fun p => p.2) else some s
  | [] => some s

def skipExp (s : List Char) : Option (List Char) :=
  match s with
  | c :: rest =>
    if c == 'e' || c == 'E' then
      let rest2 := match rest with
        | c2 :: r2 => if c2 == '+' || c2 == '-' then r2 else rest
        | [] => rest
      (parseDigits rest2).map (fun p => p.2)
    else some s
  | [] => some s

def parseNum (s : List Char) : Option (JVal × List Char) := do
  let (neg, s1) := match s with
    | c :: rest => if c == '-' then (true, rest) else (false, s)
    | [] => (false, s)
  let (n, s2) ← parseDigits s1
  let s3 ← skipFrac s2
  let s4 ← skipExp s3
  some (JVal.num (if neg then -(n : Int) else (n : Int)), s4)

mutual

def parseVal : Nat → List Char → Option (JVal × List Char)
  | 0, _ => none
  | _, [] => none
  | fuel+1, c :: rest =>
    if c == lbraceChar then
      match skipWs rest with
      | c1 :: r1 =>
        if c1 == rbraceChar then some (.obj [], r1)
        else
          match parseMembers fuel (c1 :: r1) with
          | some (fs, r) => some (.obj fs, r)
          | none => none
      | [] => none
    else if c == '[' then
      match skipWs rest with
      | c1 :: r1 =>
        if c1 == ']' then some (.arr [], r1)
        else
          match parseElems fuel (c1 :: r1) with
          | some (vs, r) => some (.arr vs, r)
          | none => none
      | [] => none
    else if c == quoteChar then
      match parseStr (rest.length + 1) rest with
      | some (cs, r) => some (.str (String.mk cs), r)
      | none => none
    else if c == 't' then parseLit ['t', 'r', 'u', 'e'] (.bool true) (c :: rest)
    else if c == 'f' then parseLit ['f', 'a', 'l', 's', 'e'] (.bool false) (c :: rest)
    else if c == 'n' then parseLit ['n', 'u', 'l', 'l'] .null (c :: rest)
    else if c == '-' || c.isDigit then parseNum (c :: rest)
    else none

def parseElems : Nat → List Char → Option (List JVal × List Char)
  | 0, _ => none
  | fuel+1, s =>
    match parseVal fuel s with
    | none => none
    | some (v, r) =>
      match skipWs r with
      | c :: r2 =>
        if c == ',' then
          match parseElems fuel (skipWs r2) with
          | some (vs, r3) => some (v :: vs, r3)
          | none => none
        else if c == ']' then some ([v], r2)
        else none
      | [] => none

def parseMembers : Nat → List Char → Option (List (String × JVal) × List Char)
  | 0, _ => none
  | _, [] => none
  | fuel+1, c :: rest =>
    if c == quoteChar then
      match parseStr (rest.length + 1) rest with
      | none => none
      | some (k, r) =>
        match skipWs r with
        | c1 :: r2 =>
          if c1 == ':' then
            match parseVal fuel (skipWs r2) with
            | none => none
            | some (v, r3) =>
              match skipWs r3 with
              | c2 :: r4 =>
                if c2 == ',' then
                  match parseMembers fuel (skipWs r4) with
                  | some (fs, r5) => some ((String.mk k, v) :: fs, r5)
                  | none => none
                else if c2 == rbraceChar then some ([(String.mk k, v)], r4)
                else none
              | [] => none
          else none
        | [] => none
    else none

end

/-- JSON.parse on a whole string: parse one value surrounded by
whitespace; none models a thrown SyntaxError. -/
def parseJson (s : String) : Option JVal :=
  match parseVal (s.data.length * 2 + 4) (skipWs s.data) with
  | some (v, rest) => if (skipWs rest).isEmpty then some v else none
  | none => none

/-! ## adfToText (src/index.js lines 159-179)

The walk mutates an accumulator inside a try block; a thrown TypeError
is swallowed by the empty catch and the text accumulated so far is
returned. Except Unit tracks a throw inside one inner (text-run) loop;
the outer loop returns its accumulator when a throw reaches it. -/

/-- Null test: property access on a null JS value throws a TypeError
(undefined never occurs as a parsed JSON element). -/
def jsIsNull : JVal → Bool
  | .null => true
  | _ => false

/-- Inner loop (lines 168-172): paragraphText concatenation over the
elements of paragraph.content. Reading .text of a null element throws
(error ()), which discards the partial paragraph text as in the source,
where the local paragraphText dies with the exception. -/
def runsText : List JVal → Except Unit String
  | [] => .ok ""
  | c :: rest =>
    if jsIsNull c then .error ()
    else
      let piece :=
        match getField c "text" with
        | some v => if truthy v then jsToString v else ""
        | none => ""
      match runsText rest with
      | .ok t => .ok (piece ++ t)
      | .error e => .error e

/-- The strict equality test paragraph.type === the paragraph tag of
line 166: true exactly for a string-valued type field equal to it. -/
def isParagraphType : Option JVal → Bool
  | some (.str s) => s == "paragraph"
  | _ => false

/-- Outer loop (lines 165-175) over json.content: paragraph-typed blocks
contribute their run text plus a newline when non-empty; any throw ends
the walk and the accumulator is returned (the catch on line 176 is
empty). A paragraph whose content is a string is iterated character by
character by JS; no character has a text property, so it contributes
nothing. A paragraph whose content is otherwise not iterable throws. -/
def parasLoop (acc : String) : List JVal → String
  | [] => acc
  | p :: rest =>
    if jsIsNull p then acc
    else if isParagraphType (getField p "type") then
      match getField p "content" with
      | some (.arr cs) =>
        match runsText cs with
        | .ok t => parasLoop (acc ++ (if t != "" then t ++ "\n" else "")) rest
        | .error _ => acc
      | some (.str _) => parasLoop acc rest
      | _ => acc
    else parasLoop acc rest

/-- The walk over a parsed document: json.content must be an array to be
iterated; a string iterates as characters (none a paragraph), anything
else throws immediately and the initial empty accumulator is returned. -/
def adfWalk (j : JVal) : String :=
  if jsIsNull j then ""
  else
    match getField j "content" with
    | some (.arr blocks) => parasLoop "" blocks
    | some (.str _) => ""
    | _ => ""

/-- adfToText (lines 159-179): JSON.parse then the walk; a parse failure
is caught and yields the empty accumulator. -/
def adfToText (adf : String) : String :=
  match parseJson adf with
  | none => ""
  | some j => adfWalk j

/-! Spec-side formulation of the rich-text walk, written from the words
of the spec: concatenate the text runs of each top-level paragraph
block, ignoring non-text runs and non-paragraph blocks, and append a
newline after each non-empty paragraph. -/

/-- Spec-side formulation: the text a single run contributes (empty for
a run without a string text field, so non-text runs are ignored). -/
def specRunText (r : JVal) : String :=
  match getField r "text" with
  | some (.str s) => s
  | _ => ""

/-- Spec-side formulation: concatenation of the text runs of one
paragraph. -/
def specParaText : List JVal → String
  | [] => ""
  | r :: rs => specRunText r ++ specParaText rs

/-- Spec-side formulation: the full plain-text rendering of a block
list, a newline appended after each non-empty paragraph, non-paragraph
blocks ignored. -/
def specWalkBlocks : List JVal → String
  | [] => ""
  | b :: bs =>
    (if isParagraphType (getField b "type") then
       match getField b "content" with
       | some (.arr rs) =>
         let t := specParaText rs
         if t = "" then "" else t ++ "\n"
       | _ => ""
     else "") ++ specWalkBlocks bs

/-- A run the walk can process without throwing: non-null, and its text
field (when present) is a string. -/
def goodRun (r : JVal) : Bool :=
  !jsIsNull r &&
    (match getField r "text" with
     | none => true
     | some (.str _) => true
     | some _ => false)

/-- A block the walk can process without throwing: non-null, and when it
is paragraph-typed its content is an array of good runs. -/
def goodBlock (b : JVal) : Bool :=
  !jsIsNull b &&
    (if isParagraphType (getField b "type") then
       match getField b "content" with
       | some (.arr rs) => rs.all goodRun
       | _ => false
     else true)

/-- A well-formed rich document: an object whose content is an array of
good blocks. -/
def wellFormedAdf : JVal → Bool
  | .obj fs =>
    match getField (.obj fs) "content" with
    | some (.arr bs) => bs.all goodBlock
    | _ => false
  | _ => false

/-- The top-level block list of a document. -/
def adfBlocks (j : JVal) : List JVal :=
  match getField j "content" with
  | some (.arr bs) => bs
  | _ => []

/-! ## Poll FILTER step (src/index.js lines 215-248) -/

structure Post where
  id : String
  isDeleted : Bool
deriving DecidableEq, Repr

/-- The FILTER loop of poll (lines 215-248), restricted to the dedup
decision: returns the surviving posts in fetch order together with the
cache as it stands after the loop. The cache is the JS Set this.cache,
modelled as a list of ids (has = contains, add = cons). -/
def filterPosts (cache : List String) : List Post → List Post × List String
  | [] => ([], cache)
  | p :: rest =>
    if ¬ cache.contains p.id ∧ ¬ p.isDeleted then
      let r := filterPosts (p.id :: cache) rest
      (p :: r.1, r.2)
    else
      filterPosts cache rest

/-! ## Wall-owner resolution inside FILTER (src/index.js line 243)

data.wallOwnerId = response._embedded.wallOwners?.find(wall =>
wall.wallContainerId === data.containerId).userId

The optional chain short-circuits the whole tail when wallOwners is
absent, so the userId read is skipped and the result is undefined; when
the list is present but find returns undefined, reading .userId throws.
The outer Option is the throw (none); the inner Option is the JS value
(none = undefined). -/

structure WallOwnerEntry where
  wallContainerId : String
  userId : String
deriving DecidableEq, Repr

def wallOwnerLookup (wallOwners : Option (List WallOwnerEntry)) (containerId : String) :
    Option (Option String) :=
  match wallOwners with
  | none => some none
  | some l =>
    match l.find? (fun w => w.wallContainerId == containerId) with
    | some w => some (some w.userId)
    | none => none

/-! ## RESOLVE_CONTAINERS guard (src/index.js line 251)

if (pageIds || userIds) this.containerCache = (await ...getArticleNamesAndUsernames...)

pageIds and userIds are Set objects; ECMAScript ToBoolean of any object
reference is true regardless of its contents. -/

/-- ECMAScript ToBoolean applied to a Set object reference. -/
def jsSetToBoolean (_ : List String) : Bool := true

/-- The guard expression pageIds || userIds of line 251. -/
def resolveGuard (pageIds userIds : List String) : Bool :=
  jsSetToBoolean pageIds || jsSetToBoolean userIds

structure ArticleInfo where
  title : String
  relativeUrl : String
deriving DecidableEq, Repr

structure UserInfo where
  username : String
deriving DecidableEq, Repr

/-- this.containerCache as returned by getArticleNamesAndUsernames:
articleNames maps page ids, userIds maps user ids. -/
structure ContainerCache where
  articleNames : List (String × ArticleInfo)
  userIds : List (String × UserInfo)
deriving DecidableEq, Repr

/-- Lines 251-258: the lookup call is issued and this.containerCache is
overwritten exactly when the guard holds; otherwise the previous value
survives. fresh stands for the response of the batched lookup. -/
def resolveContainersStep (prev : Option ContainerCache) (pageIds userIds : List String)
    (fresh : ContainerCache) : Option ContainerCache :=
  if resolveGuard pageIds userIds then some fresh else prev

/-! ## DISPATCH batching (src/index.js lines 261-270)

embeds = embeds.reverse();
[...Array(Math.ceil(embeds.length / 10))].map((_, i) => embeds.slice(i * 10, i * 10 + 10))
  .map(list => this.webhook.send({ embeds: ... })) -/

/-- The chunking expression of line 265: for each index below
ceil(length / 10), the slice of ten starting at ten times the index. -/
def chunkEmbeds {α : Type} (embeds : List α) : List (List α) :=
  (List.range ((embeds.length + 9) / 10)).map (fun i => (embeds.drop (i * 10)).take 10)

/-- Lines 263-269: reverse so the oldest surviving post is first, then
chunk; each chunk becomes one webhook.send call, in list order. -/
def dispatchBatches {α : Type} (embeds : List α) : List (List α) :=
  chunkEmbeds embeds.reverse

/-! ## Formatter (src/index.js lines 283-331) -/

/-- The working record built by the FILTER loop (lines 220-239), with
the fields generateEmbed reads. title and body are strings with the
empty string for a missing value (JS truthiness of a string is
non-emptiness); poll carries the answer texts when present; quiz is the
truthiness of the quiz marker. -/
structure PostData where
  title : String
  body : String
  image : Option String
  authorName : String
  poll : Option (List String)
  quiz : Bool
  isLocked : Bool
  isReply : Bool
  containerType : String
  containerId : String
  containerName : String
  wallOwnerId : Option String
deriving DecidableEq, Repr

def lockGlyph : String := "🔒︎"

def replyGlyph : String := "↶"

def pollGlyph : String := "📊︎"

def quizGlyph : String := "🕑︎"

/-- Lines 309-314: the sequential glyph appends, a concatenation in the
fixed source order locked, reply, poll, quiz. -/
def footerGlyphs (d : PostData) : String :=
  (if d.isLocked then lockGlyph else "") ++
  (if d.isReply then replyGlyph else "") ++
  (if d.poll.isSome then pollGlyph else "") ++
  (if d.quiz then quizGlyph else "")

def lookupField {α : Type} (l : List (String × α)) (k : String) : Option α :=
  (l.find? (fun e => e.1 == k)).map (fun e => e.2)

/-- The container label appended on lines 319-326. The switch has no
default, so an unknown container type appends nothing. The
ARTICLE_COMMENT and WALL cases read this.containerCache unguarded; a
missing entry (or an undefined wallOwnerId indexing the map) throws,
modelled as none. -/
def containerLabel (d : PostData) (cc : ContainerCache) : Option String :=
  match d.containerType with
  | "FORUM" => some ("Discussions • " ++ d.containerName)
  | "ARTICLE_COMMENT" =>
    match lookupField cc.articleNames d.containerId with
    | some a => some ("Article comment • " ++ a.title)
    | none => none
  | "WALL" =>
    match d.wallOwnerId with
    | none => none
    | some oid =>
      match lookupField cc.userIds oid with
      | some u => some ("Message Wall • " ++ u.username)
      | none => none
  | _ => some ""

/-- The parts of the Discord MessageEmbed that generateEmbed sets and
the verified properties read. -/
structure EmbedData where
  authorName : String
  title : Option String
  description : Option String
  fields : List (String × String)
  image : Option String
  footer : Option String
deriving DecidableEq, Repr

/-- generateEmbed (lines 283-331). The mutation sequence of the source
is written as one record: setTitle and setDescription fire in the
branches of lines 294-301, the poll field on lines 303-305, the image on
line 307, and the footer on lines 309-328 as the glyph string, the
separating space added when the glyph string is non-empty, and the
container label. A throwing container-cache lookup (in getPostUrl on
line 286 and in the footer switch, which read the same entry) aborts the
embed, modelled as none. -/
def generateEmbed (d : PostData) (cc : ContainerCache) : Option EmbedData :=
  match containerLabel d cc with
  | none => none
  | some lbl =>
    let g := footerGlyphs d
    some {
      authorName := trimEllip d.authorName 256 "…"
      title :=
        if d.title != "" then some (trimEllip d.title 256 "…")
        else if d.body != "" then some (trimEllip d.body 256 "…")
        else some "(untitled)"
      description := if d.title != "" then some (trimEllip d.body 500 "…") else none
      fields :=
        match d.poll with
        | some answers =>
          [("Poll", trimEllip (String.intercalate "\n" (answers.map (fun a => "• " ++ a))) 1024 "…")]
        | none => []
      image := d.image
      footer := some ((if g.length != 0 then g ++ " " else g) ++ lbl) }

/-! ## Startup config check (src/index.js lines 25-52)

if (Object.values(this.config).flat(1).includes(null)) { this.finish(); throw ... }

Object.values(this.config) is the array [devMode, webhook, fandom,
interval] in insertion order; Array.prototype.flat flattens nested
arrays only, so the two plain config sub-objects pass through intact and
includes(null) inspects them as object references. -/

structure WebhookConfig where
  id : Option String
  token : Option String
deriving DecidableEq, Repr

structure FandomConfig where
  wiki : Option String
  domain : String
  username : Option String
  password : Option String
deriving DecidableEq, Repr

structure BotConfig where
  devMode : Bool
  webhook : WebhookConfig
  fandom : FandomConfig
  interval : Nat
deriving DecidableEq, Repr

/-- A missing setting is stored as null (lines 29-36 use || null). -/
def optStr : Option String → JVal
  | some s => .str s
  | none => .null

def webhookJVal (w : WebhookConfig) : JVal :=
  .obj [("id", optStr w.id), ("token", optStr w.token)]

def fandomJVal (f : FandomConfig) : JVal :=
  .obj [("wiki", optStr f.wiki), ("domain", .str f.domain),
        ("username", optStr f.username), ("password", optStr f.password)]

/-- Object.values(this.config) in property insertion order (lines 26-39). -/
def configValues (c : BotConfig) : List JVal :=
  [.bool c.devMode, webhookJVal c.webhook, fandomJVal c.fandom, .num (c.interval : Int)]

/-- Array.prototype.flat with depth 1: splices array elements, leaves
every other element (including plain objects) in place. -/
def flatOne (l : List JVal) : List JVal :=
  l.flatMap fun v =>
    match v with
    | .arr xs => xs
    | v => [v]

/-- Array.prototype.includes(null): SameValueZero against null. -/
def includesNull (l : List JVal) : Bool :=
  l.any fun v =>
    match v with
    | .null => true
    | _ => false

/-- The guard of line 49. -/
def missingConfigCheck (c : BotConfig) : Bool :=
  includesNull (flatOne (configValues c))

/-- Modelled from the spec: a required value (wiki identifier, username,
password, webhook id or webhook token) is missing. -/
def requiredConfigMissing (c : BotConfig) : Bool :=
  c.webhook.id.isNone || c.webhook.token.isNone || c.fandom.wiki.isNone ||
  c.fandom.username.isNone || c.fandom.password.isNone

/-- A configuration whose required webhook id is missing and whose other
settings are present. -/
def missingIdConfig : BotConfig :=
  { devMode := false
    webhook := { id := none, token := some "tok" }
    fandom := { wiki := some "w", domain := "fandom.com",
                username := some "user", password := some "pass" }
    interval := 30000 }

/-! ## Session manager retry path (src/index.js lines 89-117)

fandomLogin returns new Promise(async (resolve, reject) => { try { ...
resolve(response) } catch (err) { console.error(..., err.response.body);
return await new Promise(resolve => setTimeout(async () => { resolve();
return await this.fandomLogin(); }, 10000)) } }).

One attempt is classified by its outcome. On success the executor calls
the outer resolve. In the catch, console.error reads err.response.body
first: a failure that carries no HTTP response (a network-level error)
makes that read throw a TypeError inside the async executor, so nothing
further runs, no retry is scheduled and neither resolve nor reject is
ever called. For a failure that does carry a response, setTimeout
schedules a fresh fandomLogin call after 10000 ms, but the resolve
invoked in its callback is the inner timer promise resolve, which
shadows the outer one, so the promise held by the original caller is
still never settled. -/

inductive LoginOutcome where
  | success
  | httpFailure
  | netFailure
deriving DecidableEq, Repr

inductive CatchResult where
  | resolved
  | retryScheduled (delayMs : Nat)
  | catchThrow
deriving DecidableEq, Repr

/-- What one execution of the executor body does, by attempt outcome. -/
def loginAttemptStep : LoginOutcome → CatchResult
  | .success => .resolved
  | .httpFailure => .retryScheduled 10000
  | .netFailure => .catchThrow

/-- Whether the promise returned to the original caller of fandomLogin
ever settles, over the sequence of outcomes of the attempt chain: only
the first attempt can call the outer resolve. -/
def loginResolvesForCaller : List LoginOutcome → Bool
  | [] => false
  | o :: _ =>
    match loginAttemptStep o with
    | .resolved => true
    | _ => false

/-- Whether a failed attempt schedules another attempt. -/
def retryScheduledAfter (o : LoginOutcome) : Bool :=
  match loginAttemptStep o with
  | .retryScheduled _ => true
  | _ => false

/-! ## Concrete sample data used by witnesses -/

/-- The well-formed one-paragraph document of the spec examples. -/
def goodAdfExample : String :=
  "\x7b\"content\":[\x7b\"type\":\"paragraph\",\"content\":[\x7b\"text\":\"Hi\"\x7d]\x7d]\x7d"

/-- A parsable but malformed document: its second paragraph block has
the number 0 as content. -/
def badAdfExample : String :=
  "\x7b\"content\":[\x7b\"type\":\"paragraph\",\"content\":[\x7b\"text\":\"Hi\"\x7d]\x7d,\x7b\"type\":\"paragraph\",\"content\":0\x7d]\x7d"

def sampleCC : ContainerCache :=
  { articleNames := [], userIds := [] }

def samplePost : PostData :=
  { title := "Hello title", body := "Body", image := none, authorName := "Alice"
    poll := none, quiz := false, isLocked := true, isReply := false
    containerType := "FORUM", containerId := "1", containerName := "General"
    wallOwnerId := none }

def sampleEmbed : EmbedData :=
  { authorName := "Alice", title := some "Hello title", description := some "Body"
    fields := [], image := none, footer := some "🔒︎ Discussions • General" }

def samplePost2 : PostData :=
  { title := "", body := "Hello", image := none, authorName := "Bob"
    poll := none, quiz := false, isLocked := false, isReply := false
    containerType := "FORUM", containerId := "1", containerName := "General"
    wallOwnerId := none }

def sampleEmbed2 : EmbedData :=
  { authorName := "Bob", title := some "Hello", description := none
    fields := [], image := none, footer := some "Discussions • General" }

/-! # Theorems -/

theorem string_data_append (a b : String) : (a ++ b).data = a.data ++ b.data := by
  cases a; cases b; rfl

theorem string_length_eq (s : String) : s.length = s.data.length := rfl

theorem string_mk_data (l : List Char) : (String.mk l).data = l := rfl

theorem strTake_length (s : String) (n : Nat) :
    (strTake s n).length = min n s.data.length := by
  show (s.data.take n).length = min n s.data.length
  exact List.length_take n s.data

theorem strTake_data (s : String) (n : Nat) : (strTake s n).data = s.data.take n := rfl

theorem string_ext {a b : String} (h : a.data = b.data) : a = b := by
  cases a
  cases b
  exact congrArg String.mk h

theorem string_empty_append (s : String) : "" ++ s = s := by
  apply string_ext
  rw [string_data_append]
  show [] ++ s.data = s.data
  exact List.nil_append _

theorem string_append_empty (s : String) : s ++ "" = s := by
  apply string_ext
  rw [string_data_append]
  show s.data ++ [] = s.data
  exact List.append_nil _

theorem string_append_assoc (a b c : String) : a ++ b ++ c = a ++ (b ++ c) := by
  apply string_ext
  rw [string_data_append, string_data_append, string_data_append, string_data_append]
  exact List.append_assoc _ _ _

theorem filterPosts_cache_monotone (cache : List String) (posts : List Post)
    (x : String) (hx : x ∈ cache) : x ∈ (filterPosts cache posts).2 := by
  induction posts generalizing cache with
  | nil => simpa [filterPosts] using hx
  | cons p rest ih =>
    by_cases h : ¬ cache.contains p.id ∧ ¬ p.isDeleted
    · simp only [filterPosts, if_pos h]
      exact ih (p.id :: cache) (List.mem_cons_of_mem _ hx)
    · simp only [filterPosts, if_neg h]
      exact ih cache hx

theorem filterPosts_emitted_props (cache : List String) (posts : List Post)
    (p : Post) (hp : p ∈ (filterPosts cache posts).1) :
    p.isDeleted = false ∧ p.id ∉ cache ∧ p.id ∈ (filterPosts cache posts).2 := by
  induction posts generalizing cache with
  | nil => simp [filterPosts] at hp
  | cons q rest ih =>
    by_cases h : ¬ cache.contains q.id ∧ ¬ q.isDeleted
    · simp only [filterPosts, if_pos h] at hp ⊢
      rcases List.mem_cons.mp hp with rfl | hp'
      · refine ⟨by simpa using h.2, by simpa using h.1, ?_⟩
        exact filterPosts_cache_monotone _ _ _ (List.mem_cons_self _ _)
      · rcases ih (q.id :: cache) hp' with ⟨hd, hc, hm⟩
        exact ⟨hd, fun hmem => hc (List.mem_cons_of_mem _ hmem), hm⟩
    · simp only [filterPosts, if_neg h] at hp ⊢
      rcases ih cache hp with ⟨hd, hc, hm⟩
      exact ⟨hd, hc, hm⟩

theorem filterPosts_complete (cache : List String) (posts : List Post)
    (p : Post) (hmem : p ∈ posts) (hdel : p.isDeleted = false)
    (hnew : p.id ∉ cache) :
    ∃ q ∈ (filterPosts cache posts).1, q.id = p.id := by
  induction posts generalizing cache with
  | nil => cases hmem
  | cons q rest ih =>
    rcases List.mem_cons.mp hmem with rfl | hmem'
    · have h : ¬ cache.contains p.id ∧ ¬ p.isDeleted := by
        constructor
        · simpa using hnew
        · simp [hdel]
      simp only [filterPosts, if_pos h]
      exact ⟨p, List.mem_cons_self _ _, rfl⟩
    · by_cases h : ¬ cache.contains q.id ∧ ¬ q.isDeleted
      · simp only [filterPosts, if_pos h]
        by_cases hid : p.id = q.id
        · exact ⟨q, List.mem_cons_self _ _, hid.symm⟩
        · have hnew' : p.id ∉ q.id :: cache := by
            simp [hid, hnew]
          rcases ih (q.id :: cache) hmem' hnew' with ⟨r, hr, hrid⟩
          exact ⟨r, List.mem_cons_of_mem _ hr, hrid⟩
      · simp only [filterPosts, if_neg h]
        exact ih cache hmem' hnew

theorem filterPosts_nodup_ids (cache : List String) (posts : List Post) :
    ((filterPosts cache posts).1.map Post.id).Nodup := by
  induction posts generalizing cache with
  | nil => simp [filterPosts]
  | cons p rest ih =>
    by_cases h : ¬ cache.contains p.id ∧ ¬ p.isDeleted
    · simp only [filterPosts, if_pos h, List.map_cons, List.nodup_cons]
      refine ⟨?_, ih (p.id :: cache)⟩
      intro hmem
      rcases List.mem_map.mp hmem with ⟨q, hq, hqid⟩
      rcases filterPosts_emitted_props _ _ _ hq with ⟨_, hc, _⟩
      exact hc (by simp [hqid])
    · simp only [filterPosts, if_neg h]
      exact ih cache

/-- Claim C1: the poll-tick FILTER step passes a fetched post to the
Formatter exactly when its deleted flag is unset and its identifier is
not yet in the dedup cache; the identifier is added to the cache at
filter time, so an identifier filtered in once is never emitted again,
within the tick (the emitted ids are pairwise distinct) or in any later
tick run against the updated cache, even if FETCH returns it again. -/
theorem claim_C1_filter_dedup :
    (∀ (cache : List String) (posts : List Post) (p : Post),
        p ∈ (filterPosts cache posts).1 →
          p.isDeleted = false ∧ p.id ∉ cache ∧ p.id ∈ (filterPosts cache posts).2) ∧
    (∀ (cache : List String) (posts : List Post) (p : Post),
        p ∈ posts → p.isDeleted = false → p.id ∉ cache →
          ∃ q ∈ (filterPosts cache posts).1, q.id = p.id) ∧
    (∀ (cache : List String) (posts : List Post),
        ((filterPosts cache posts).1.map Post.id).Nodup) ∧
    (∀ (cache : List String) (l₁ l₂ : List Post) (p q : Post),
        p ∈ (filterPosts cache l₁).1 →
        q ∈ (filterPosts (filterPosts cache l₁).2 l₂).1 → q.id ≠ p.id) := by
  refine ⟨filterPosts_emitted_props, filterPosts_complete, filterPosts_nodup_ids, ?_⟩
  intro cache l₁ l₂ p q hp hq he
  rcases filterPosts_emitted_props _ _ _ hp with ⟨_, _, hmem⟩
  rcases filterPosts_emitted_props _ _ _ hq with ⟨_, hnot, _⟩
  exact hnot (by rw [he]; exact hmem)

/-- Witness for C1 at the two-fetch spec example: ids 5 and 6 arrive in
the first tick, ids 6 and 7 in the second; the post emitted by the
second tick cannot carry the id emitted for 6 in the first. -/
theorem claim_C1_filter_dedup_witness :
    (Post.mk "7" false).id ≠ (Post.mk "6" false).id :=
  claim_C1_filter_dedup.2.2.2 [] [Post.mk "5" false, Post.mk "6" false]
    [Post.mk "6" false, Post.mk "7" false] (Post.mk "6" false) (Post.mk "7" false)
    (by decide) (by decide)

/-- Claim C2 counterexample: with the default marker and maxLength 0,
trimEllip returns the one-character marker, which is longer than
maxLength, so the bound claimed for every maxLength fails at 0. -/
theorem claim_C2_counterexample :
    trimEllip "ab" 0 "…" = "…" ∧ ¬ ((trimEllip "ab" 0 "…").length ≤ 0) := by decide

/-- Claim C2 (amended): for the default marker and any maxLength of at
least the marker length 1, trimEllip first trims whitespace, its result
never exceeds maxLength, it returns the trimmed text unchanged whenever
that fits, and otherwise the first maxLength - 1 characters followed by
the marker. -/
theorem claim_C2_trimEllip (text : String) (length : Nat) (h : 1 ≤ length) :
    (trimEllip text length "…").length ≤ length ∧
    ((jsTrim text).length ≤ length → trimEllip text length "…" = jsTrim text) ∧
    (length < (jsTrim text).length →
      trimEllip text length "…" = strTake (jsTrim text) (length - 1) ++ "…") := by
  refine ⟨?_, ?_, ?_⟩
  · simp only [trimEllip]
    split
    · rw [string_length_eq, string_data_append, strTake_data, List.length_append,
        List.length_take]
      have hdot : ("…" : String).data.length = 1 := rfl
      rw [hdot]
      have hmin : min (length - ("…" : String).length) (jsTrim text).data.length
          ≤ length - 1 :=
        le_trans (min_le_left _ _) (le_of_eq rfl)
      omega
    · rename_i hle
      exact Nat.le_of_not_lt hle
  · intro hfit
    simp only [trimEllip]
    rw [if_neg (not_lt.mpr hfit)]
  · intro hover
    simp only [trimEllip]
    rw [if_pos hover]
    have hdot : ("…" : String).length = 1 := rfl
    rw [hdot]

/-- Witness for C2 (amended) at maxLength 3 on a padded input. -/
theorem claim_C2_trimEllip_witness :
    (trimEllip " hello " 3 "…").length ≤ 3 ∧
    ((jsTrim " hello ").length ≤ 3 → trimEllip " hello " 3 "…" = jsTrim " hello ") ∧
    (3 < (jsTrim " hello ").length →
      trimEllip " hello " 3 "…" = strTake (jsTrim " hello ") 2 ++ "…") :=
  claim_C2_trimEllip " hello " 3 (by decide)

theorem chunkEmbeds_cons {α : Type} (l : List α) (h : l ≠ []) :
    chunkEmbeds l = l.take 10 :: chunkEmbeds (l.drop 10) := by
  have hlen : 1 ≤ l.length := List.length_pos.mpr h
  unfold chunkEmbeds
  have hceil : (l.length + 9) / 10 = ((l.drop 10).length + 9) / 10 + 1 := by
    rw [List.length_drop]
    omega
  rw [hceil, List.range_succ_eq_map, List.map_cons]
  congr 1
  rw [List.map_map]
  apply List.map_congr_left
  intro i _
  show (l.drop (Nat.succ i * 10)).take 10 = ((l.drop 10).drop (i * 10)).take 10
  rw [List.drop_drop]
  have harith : Nat.succ i * 10 = 10 + i * 10 := by omega
  rw [harith]

theorem chunkEmbeds_flatten {α : Type} (l : List α) : (chunkEmbeds l).flatten = l := by
  generalize hn : l.length = n
  induction n using Nat.strong_induction_on generalizing l with
  | _ n ih =>
    by_cases h : l = []
    · subst h
      simp [chunkEmbeds]
    · have hdrop : (l.drop 10).length < n := by
        subst hn
        simp only [List.length_drop]
        have := List.length_pos.mpr h
        omega
      rw [chunkEmbeds_cons l h, List.flatten_cons, ih _ hdrop (l.drop 10) rfl,
        List.take_append_drop]

theorem chunkEmbeds_length {α : Type} (l : List α) :
    (chunkEmbeds l).length = (l.length + 9) / 10 := by
  simp [chunkEmbeds]

theorem chunkEmbeds_le_ten {α : Type} (l : List α) (b : List α)
    (hb : b ∈ chunkEmbeds l) : b.length ≤ 10 := by
  simp only [chunkEmbeds, List.mem_map] at hb
  rcases hb with ⟨i, _, rfl⟩
  rw [List.length_take]
  exact min_le_left _ _

/-- Claim C3: for a non-empty batch the dispatcher reverses the list so
the oldest surviving post is first, issues exactly ceil(N/10) sender
calls of at most ten messages each, and the concatenation of the
batches in call order is the whole reversed message list. -/
theorem claim_C3_dispatch {α : Type} (msgs : List α) (h : msgs ≠ []) :
    dispatchBatches msgs = chunkEmbeds msgs.reverse ∧
    (dispatchBatches msgs).length = (msgs.length + 9) / 10 ∧
    (∀ b ∈ dispatchBatches msgs, b.length ≤ 10) ∧
    (dispatchBatches msgs).flatten = msgs.reverse := by
  refine ⟨rfl, ?_, ?_, ?_⟩
  · rw [dispatchBatches, chunkEmbeds_length, List.length_reverse]
  · intro b hb
    exact chunkEmbeds_le_ten _ b hb
  · exact chunkEmbeds_flatten _

/-- Witness for C3 on twelve messages: two calls, chronological join. -/
theorem claim_C3_dispatch_witness :
    (dispatchBatches [1, 2, 3, 4, 5, 6, 7, 8, 9, 10, 11, 12]).length = 2 ∧
    (dispatchBatches [1, 2, 3, 4, 5, 6, 7, 8, 9, 10, 11, 12]).flatten
      = [12, 11, 10, 9, 8, 7, 6, 5, 4, 3, 2, 1] := by
  have h := claim_C3_dispatch [1, 2, 3, 4, 5, 6, 7, 8, 9, 10, 11, 12] (by decide)
  exact ⟨h.2.1, h.2.2.2⟩

/-- Claim C4, evaluated at the failing inputs: a first attempt failing
at the network level (no HTTP response) makes the catch handler throw
while reading err.response.body, so no retry is scheduled, against the
claimed unconditional 10-second retry; and for either kind of failure
the promise held by the caller never resolves, even when the very next
attempt succeeds, against the claimed resolution once authentication
succeeds (the catch resolves an inner timer promise whose resolve
shadows the outer one). Only an immediately successful first attempt
resolves for the caller. -/
theorem claim_C4_login_retry_bug :
    loginAttemptStep .netFailure = .catchThrow ∧
    retryScheduledAfter .netFailure = false ∧
    loginResolvesForCaller [.netFailure, .success] = false ∧
    loginAttemptStep .httpFailure = .retryScheduled 10000 ∧
    loginResolvesForCaller [.httpFailure, .success] = false ∧
    loginResolvesForCaller [.success] = true := by
  decide

/-- Claim C5, evaluated at a failing input and in general: the
missing-config guard flattens an array whose only nested values sit
inside two plain (non-array) objects, so it never observes a null and
never fires, for any configuration; in particular a configuration
missing the required webhook id starts up without the claimed fatal
error. -/
theorem claim_C5_config_check_bug :
    (∀ c : BotConfig, missingConfigCheck c = false) ∧
    requiredConfigMissing missingIdConfig = true ∧
    missingConfigCheck missingIdConfig = false :=
  ⟨fun _ => rfl, rfl, rfl⟩

/-- Claim C6 counterexample: with the wall-owners companion list absent,
the optional chain short-circuits, so no error is raised; the owner id
is simply undefined, refuting the claim that an absent list raises. -/
theorem claim_C6_counterexample :
    wallOwnerLookup none "c1" = some none ∧ wallOwnerLookup none "c1" ≠ none := by
  decide

/-- Claim C6 (amended): the wall-owner lookup raises (aborting the tick)
exactly when the companion list is present but has no entry whose
wall-container-id equals the post container id; an absent list
short-circuits to an undefined owner id without raising, and a matching
entry yields its user id. -/
theorem claim_C6_wall_owner_lookup :
    (∀ (l : List WallOwnerEntry) (cid : String),
        (∀ w ∈ l, w.wallContainerId ≠ cid) → wallOwnerLookup (some l) cid = none) ∧
    (∀ cid : String, wallOwnerLookup none cid = some none) ∧
    (∀ (l : List WallOwnerEntry) (cid : String) (w : WallOwnerEntry),
        l.find? (fun w => w.wallContainerId == cid) = some w →
        wallOwnerLookup (some l) cid = some (some w.userId)) := by
  refine ⟨?_, fun _ => rfl, ?_⟩
  · intro l cid hnone
    have hfind : l.find? (fun w => w.wallContainerId == cid) = none := by
      rw [List.find?_eq_none]
      intro w hw
      simpa using hnone w hw
    simp [wallOwnerLookup, hfind]
  · intro l cid w hfind
    simp [wallOwnerLookup, hfind]

/-- Witness for C6 (amended) on a one-entry list with no match. -/
theorem claim_C6_wall_owner_lookup_witness :
    wallOwnerLookup (some [WallOwnerEntry.mk "a" "u1"]) "b" = none :=
  claim_C6_wall_owner_lookup.1 [WallOwnerEntry.mk "a" "u1"] "b" (by decide)

/-- Claim C10: the RESOLVE_CONTAINERS guard tests object truthiness of
the two id Sets, which is true even when both are empty, so the batched
lookup fires on every tick and the container cache is overwritten with
the fresh result regardless of the collected ids. -/
theorem claim_C10_resolve_always (prev : Option ContainerCache) (fresh : ContainerCache) :
    resolveGuard [] [] = true ∧
    (∀ pageIds userIds : List String, resolveGuard pageIds userIds = true) ∧
    resolveContainersStep prev [] [] fresh = some fresh :=
  ⟨rfl, fun _ _ => rfl, rfl⟩

theorem footerGlyphs_length_ne_zero (d : PostData) :
    ((footerGlyphs d).length != 0) = (d.isLocked || d.isReply || d.poll.isSome || d.quiz) := by
  cases hp : d.poll <;> cases h1 : d.isLocked <;> cases h2 : d.isReply <;> cases h4 : d.quiz <;>
    simp only [footerGlyphs, h1, h2, hp, h4, Option.isSome_none, Option.isSome_some] <;> decide

/-- Claim C7: the footer of every generated embed (when the container
label resolves) is the status glyphs in the fixed order locked, reply,
poll, quiz, each present exactly when its flag is set, then a single
separating space exactly when at least one glyph was added, then the
container label. -/
theorem claim_C7_footer (d : PostData) (cc : ContainerCache) (e : EmbedData)
    (h : generateEmbed d cc = some e) :
    ∃ lbl, containerLabel d cc = some lbl ∧
      e.footer = some (
        ((if d.isLocked then lockGlyph else "") ++
         (if d.isReply then replyGlyph else "") ++
         (if d.poll.isSome then pollGlyph else "") ++
         (if d.quiz then quizGlyph else "")) ++
        (if d.isLocked || d.isReply || d.poll.isSome || d.quiz then " " else "") ++ lbl) := by
  cases hcl : containerLabel d cc with
  | none => simp [generateEmbed, hcl] at h
  | some lbl =>
    refine ⟨lbl, rfl, ?_⟩
    simp only [generateEmbed, hcl, Option.some.injEq] at h
    subst h
    show some ((if (footerGlyphs d).length != 0 then footerGlyphs d ++ " "
        else footerGlyphs d) ++ lbl) = _
    rw [footerGlyphs_length_ne_zero]
    cases hb : (d.isLocked || d.isReply || d.poll.isSome || d.quiz) with
    | true =>
      rw [if_pos rfl, if_pos rfl]
      show some ((footerGlyphs d ++ " ") ++ lbl) = some (footerGlyphs d ++ " " ++ lbl)
      rfl
    | false =>
      have hflags := hb
      simp only [Bool.or_eq_false_iff] at hflags
      obtain ⟨⟨⟨hl, hr⟩, hp⟩, hq⟩ := hflags
      simp only [footerGlyphs, hl, hr, hp, hq]
      simp [string_append_empty, string_empty_append]

/-- Witness for C7 on a locked forum post. -/
theorem claim_C7_footer_witness :
    ∃ lbl, containerLabel samplePost sampleCC = some lbl ∧
      sampleEmbed.footer = some (
        ((if samplePost.isLocked then lockGlyph else "") ++
         (if samplePost.isReply then replyGlyph else "") ++
         (if samplePost.poll.isSome then pollGlyph else "") ++
         (if samplePost.quiz then quizGlyph else "")) ++
        (if samplePost.isLocked || samplePost.isReply || samplePost.poll.isSome
            || samplePost.quiz then " " else "") ++ lbl) :=
  claim_C7_footer samplePost sampleCC sampleEmbed (by decide)

/-- Claim C8: the generated embed titles a post by its title truncated
to 256 characters with the body truncated to 500 as description when a
non-empty title exists; by the body truncated to 256 with no description
when only the body is non-empty; and by the literal untitled placeholder
otherwise. -/
theorem claim_C8_title_description (d : PostData) (cc : ContainerCache) (e : EmbedData)
    (h : generateEmbed d cc = some e) :
    (d.title ≠ "" → e.title = some (trimEllip d.title 256 "…") ∧
        e.description = some (trimEllip d.body 500 "…")) ∧
    (d.title = "" → d.body ≠ "" → e.title = some (trimEllip d.body 256 "…") ∧
        e.description = none) ∧
    (d.title = "" → d.body = "" → e.title = some "(untitled)" ∧
        e.description = none) := by
  cases hcl : containerLabel d cc with
  | none => simp [generateEmbed, hcl] at h
  | some lbl =>
    simp only [generateEmbed, hcl, Option.some.injEq] at h
    subst h
    refine ⟨?_, ?_, ?_⟩
    · intro h1
      have hb : (d.title != "") = true := by simpa [bne_iff_ne] using h1
      constructor
      · show (if d.title != "" then some (trimEllip d.title 256 "…")
            else if d.body != "" then some (trimEllip d.body 256 "…")
            else some "(untitled)") = _
        rw [hb]
        rfl
      · show (if d.title != "" then some (trimEllip d.body 500 "…") else none) = _
        rw [hb]
        rfl
    · intro h1 h2
      have hb1 : (d.title != "") = false := by simp [h1]
      have hb2 : (d.body != "") = true := by simpa [bne_iff_ne] using h2
      constructor
      · show (if d.title != "" then some (trimEllip d.title 256 "…")
            else if d.body != "" then some (trimEllip d.body 256 "…")
            else some "(untitled)") = _
        rw [hb1, hb2]
        rfl
      · show (if d.title != "" then some (trimEllip d.body 500 "…") else none) = _
        rw [hb1]
        rfl
    · intro h1 h2
      have hb1 : (d.title != "") = false := by simp [h1]
      have hb2 : (d.body != "") = false := by simp [h2]
      constructor
      · show (if d.title != "" then some (trimEllip d.title 256 "…")
            else if d.body != "" then some (trimEllip d.body 256 "…")
            else some "(untitled)") = _
        rw [hb1, hb2]
        rfl
      · show (if d.title != "" then some (trimEllip d.body 500 "…") else none) = _
        rw [hb1]
        rfl

/-- Witness for C8 at the spec example: an untitled post whose body is
Hello gets the body as title and no description. -/
theorem claim_C8_title_description_witness :
    sampleEmbed2.title = some (trimEllip "Hello" 256 "…") ∧
    sampleEmbed2.description = none :=
  (claim_C8_title_description samplePost2 sampleCC sampleEmbed2 (by decide)).2.1
    rfl (by decide)

theorem runsText_good (rs : List JVal) (h : rs.all goodRun = true) :
    runsText rs = .ok (specParaText rs) := by
  induction rs with
  | nil => rfl
  | cons c rest ih =>
    rw [List.all_cons, Bool.and_eq_true] at h
    obtain ⟨hc, hrest⟩ := h
    rw [goodRun, Bool.and_eq_true, Bool.not_eq_true'] at hc
    obtain ⟨hnull, htext⟩ := hc
    simp only [runsText, hnull, Bool.false_eq_true, if_false, ih hrest]
    cases hf : getField c "text" with
    | none => simp [specParaText, specRunText, hf]
    | some v =>
      rw [hf] at htext
      cases v with
      | str s =>
        simp only [specParaText, specRunText, hf]
        by_cases hs : s = ""
        · subst hs
          simp [truthy]
        · have : truthy (.str s) = true := by simp [truthy, bne_iff_ne, hs]
          simp [this, jsToString, jsToStringF]
      | null => simp at htext
      | bool b => simp at htext
      | num n => simp at htext
      | arr xs => simp at htext
      | obj fs => simp at htext

theorem parasLoop_good (bs : List JVal) (acc : String) (h : bs.all goodBlock = true) :
    parasLoop acc bs = acc ++ specWalkBlocks bs := by
  induction bs generalizing acc with
  | nil => simp [parasLoop, specWalkBlocks, string_append_empty]
  | cons b rest ih =>
    rw [List.all_cons, Bool.and_eq_true] at h
    obtain ⟨hb, hrest⟩ := h
    rw [goodBlock, Bool.and_eq_true, Bool.not_eq_true'] at hb
    obtain ⟨hnull, hshape⟩ := hb
    simp only [parasLoop, specWalkBlocks, hnull, Bool.false_eq_true, if_false]
    by_cases hpt : isParagraphType (getField b "type") = true
    · rw [if_pos hpt] at hshape ⊢
      rw [if_pos hpt]
      cases hcont : getField b "content" with
      | none =>
        rw [hcont] at hshape
        simp at hshape
      | some cv =>
        rw [hcont] at hshape
        cases cv with
        | arr cs =>
          dsimp only at hshape ⊢
          rw [runsText_good cs hshape]
          dsimp only
          rw [ih _ hrest, string_append_assoc]
          congr 2
          by_cases hteq : specParaText cs = ""
          · simp [hteq]
          · have hne : (specParaText cs != "") = true := by simp [bne_iff_ne, hteq]
            simp [hne, hteq]
        | null => simp at hshape
        | bool b2 => simp at hshape
        | num n2 => simp at hshape
        | str s2 => simp at hshape
        | obj fs2 => simp at hshape
    · rw [if_neg hpt, if_neg hpt, string_empty_append]
      exact ih acc hrest

set_option maxRecDepth 10000

/-- Claim C9 counterexample: a parsable document whose second paragraph
block carries the number 0 as content is malformed, yet adfToText
returns the text of the first paragraph instead of the empty string
claimed for every malformed input: the walk throws at the second block
and the catch returns the accumulator gathered so far. -/
theorem claim_C9_counterexample :
    (parseJson badAdfExample).map wellFormedAdf = some false ∧
    adfToText badAdfExample = "Hi\n" ∧
    adfToText badAdfExample ≠ "" := by
  refine ⟨by decide, by decide, by decide⟩

/-- Claim C9 (amended): adfToText returns the empty string on every
unparsable input; on every well-formed rich document the walk is the
concatenation of the text runs of each top-level paragraph block with a
newline after each non-empty paragraph (ignoring non-text runs and
non-paragraph blocks); on the spec examples it yields the Hi line and
the empty string. A parsable but malformed document never propagates an
error, but may keep the text accumulated before the walk throws. -/
theorem claim_C9_adfToText :
    (∀ s : String, parseJson s = none → adfToText s = "") ∧
    (∀ j : JVal, wellFormedAdf j = true → adfWalk j = specWalkBlocks (adfBlocks j)) ∧
    adfToText goodAdfExample = "Hi\n" ∧
    adfToText "not json" = "" := by
  refine ⟨?_, ?_, by decide, by rfl⟩
  · intro s hs
    simp [adfToText, hs]
  · intro j hj
    cases j with
    | obj fs =>
      rw [wellFormedAdf] at hj
      cases hcont : getField (.obj fs) "content" with
      | none =>
        rw [hcont] at hj
        simp at hj
      | some cv =>
        rw [hcont] at hj
        cases cv with
        | arr bs =>
          have hwalk : adfWalk (.obj fs) = parasLoop "" bs := by
            simp [adfWalk, jsIsNull, hcont]
          have hblocks : adfBlocks (.obj fs) = bs := by
            simp [adfBlocks, hcont]
          rw [hwalk, hblocks, parasLoop_good bs "" hj, string_empty_append]
        | null => simp at hj
        | bool b2 => simp at hj
        | num n2 => simp at hj
        | str s2 => simp at hj
        | obj fs2 => simp at hj
    | null => simp [wellFormedAdf] at hj
    | bool b => simp [wellFormedAdf] at hj
    | num n => simp [wellFormedAdf] at hj
    | str s => simp [wellFormedAdf] at hj
    | arr xs => simp [wellFormedAdf] at hj

/-- Witness for C9 (amended): the unparsable example input, and a
well-formed document with no blocks. -/
theorem claim_C9_adfToText_witness :
    adfToText "not json" = "" ∧
    adfWalk (JVal.obj [("content", JVal.arr [])])
      = specWalkBlocks (adfBlocks (JVal.obj [("content", JVal.arr [])])) :=
  ⟨claim_C9_adfToText.1 "not json" (by rfl),
   claim_C9_adfToText.2.1 (JVal.obj [("content", JVal.arr [])]) (by rfl)⟩

end ReportedPostsBot
